import Mathlib

/-!
Verification of the `vearutop/ultrahdr` Go library (UltraHDR JPEG container
and gain-map codec) against its natural-language specification.

Shallow embedding conventions:
* Go byte slices are `List ℕ` (each element a byte value).
* Go `float32`/`float64` values are modelled as exact rationals `ℚ`.
  Transcendental library calls (`math.Log2`, `math.Exp2`, `math.Pow`) are
  abstracted as explicit function parameters collected in `FloatOps`;
  theorems assume only exact identities (`log2 1 = 0`, `exp2 0 = 1`,
  `exp2 1 = 2`) that hold both for the real functions and for their
  correctly-rounded IEEE-754 implementations.
* Go machine integers are `ℕ`/`ℤ` with explicit `% 2^32` where the code
  converts through `uint32`.
* Fallible Go functions returning `(T, error)` become `Option T` or
  `Except E T`.
-/

set_option maxRecDepth 4000

namespace UltraHDR

/-- Go `rgb` struct (gainmap_math.go lines 5-7): one pixel in linear space. -/
structure Rgb where
  r : ℚ
  g : ℚ
  b : ℚ
deriving DecidableEq, Repr

/-- Go `GainMapMetadata` struct (types.go lines 4-14).  The `[3]float32`
per-channel arrays are modelled as triples `ℚ × ℚ × ℚ`. -/
structure GainMapMetadata where
  version : List Char
  maxContentBoost : ℚ × ℚ × ℚ
  minContentBoost : ℚ × ℚ × ℚ
  gamma : ℚ × ℚ × ℚ
  offsetSDR : ℚ × ℚ × ℚ
  offsetHDR : ℚ × ℚ × ℚ
  hdrCapacityMin : ℚ
  hdrCapacityMax : ℚ
  useBaseCG : Bool
deriving DecidableEq, Repr

/-- Abstraction of the transcendental float helpers `log2f`, `exp2f`
(util.go lines 5-6) and `math.Pow`.  Theorems only ever assume exact
identities of these functions that the IEEE-754 implementations satisfy
exactly. -/
structure FloatOps where
  log2 : ℚ → ℚ
  exp2 : ℚ → ℚ
  powf : ℚ → ℚ → ℚ

/-- Raw gain computed at the top of `encodeGain` (gainmap_math.go lines
10-13): `gain := 1.0; if sdr > 0 { gain = hdr / sdr }`. -/
def encodeGainRawGain (sdr hdr : ℚ) : ℚ :=
  if 0 < sdr then hdr / sdr else 1

/-- Go `applyGainSingle` (gainmap_math.go lines 34-45). -/
def applyGainSingle (ops : FloatOps) (e : Rgb) (gain : ℚ)
    (meta : GainMapMetadata) (weight : ℚ) : Rgb :=
  let gain' := if meta.gamma.1 ≠ 1 then ops.powf gain (1 / meta.gamma.1) else gain
  let logBoost := ops.log2 meta.minContentBoost.1 * (1 - gain')
      + ops.log2 meta.maxContentBoost.1 * gain'
  let gainFactor := ops.exp2 (logBoost * weight)
  { r := (e.r + meta.offsetSDR.1) * gainFactor - meta.offsetHDR.1
    g := (e.g + meta.offsetSDR.1) * gainFactor - meta.offsetHDR.1
    b := (e.b + meta.offsetSDR.1) * gainFactor - meta.offsetHDR.1 }

/-- Go `applyGainRGB` (gainmap_math.go lines 47-68). -/
def applyGainRGB (ops : FloatOps) (e : Rgb) (gain : Rgb)
    (meta : GainMapMetadata) (weight : ℚ) : Rgb :=
  let gr := if meta.gamma.1 ≠ 1 then ops.powf gain.r (1 / meta.gamma.1) else gain.r
  let gg := if meta.gamma.2.1 ≠ 1 then ops.powf gain.g (1 / meta.gamma.2.1) else gain.g
  let gb := if meta.gamma.2.2 ≠ 1 then ops.powf gain.b (1 / meta.gamma.2.2) else gain.b
  let logBoostR := ops.log2 meta.minContentBoost.1 * (1 - gr)
      + ops.log2 meta.maxContentBoost.1 * gr
  let logBoostG := ops.log2 meta.minContentBoost.2.1 * (1 - gg)
      + ops.log2 meta.maxContentBoost.2.1 * gg
  let logBoostB := ops.log2 meta.minContentBoost.2.2 * (1 - gb)
      + ops.log2 meta.maxContentBoost.2.2 * gb
  let gainFactorR := ops.exp2 (logBoostR * weight)
  let gainFactorG := ops.exp2 (logBoostG * weight)
  let gainFactorB := ops.exp2 (logBoostB * weight)
  { r := (e.r + meta.offsetSDR.1) * gainFactorR - meta.offsetHDR.1
    g := (e.g + meta.offsetSDR.2.1) * gainFactorG - meta.offsetHDR.2.1
    b := (e.b + meta.offsetSDR.2.2) * gainFactorB - meta.offsetHDR.2.2 }

/-- Concrete `FloatOps` used to evaluate degenerate-map counterexamples.
On every argument actually reached in those evaluations it agrees with the
exact IEEE-754 results: `log2` is only applied to `1` (log2f(1) = 0
exactly), `exp2` only to `0` (exp2f(0) = 1 exactly), and `powf` is never
reached because the metadata has `gamma = 1`. -/
def degenerateOps : FloatOps where
  log2 := fun _ => 0
  exp2 := fun _ => 1
  powf := fun x _ => x

/-- Degenerate gain map used as a counterexample for C3:
`min_content_boost = max_content_boost = 1` on all channels, `gamma = 1`,
but `OffsetSDR = 0` while `OffsetHDR = 1`. -/
def c3Meta : GainMapMetadata where
  version := []
  maxContentBoost := (1, 1, 1)
  minContentBoost := (1, 1, 1)
  gamma := (1, 1, 1)
  offsetSDR := (0, 0, 0)
  offsetHDR := (1, 1, 1)
  hdrCapacityMin := 1
  hdrCapacityMax := 4
  useBaseCG := true

/-! ### MPF container blob (src/unnamed/part_006) -/

/-- Constants from src/unnamed/part_006 lines 589-613. -/
def mpfNumPictures : ℕ := 2
def mpfEndianSize : ℕ := 4
def mpfTagCount : ℕ := 3
def mpfTagSize : ℕ := 12
def mpfTypeLong : ℕ := 0x4
def mpfTypeUndefined : ℕ := 0x7
def mpfVersionTag : ℕ := 0xB000
def mpfVersionCount : ℕ := 4
def mpfNumberOfImagesTag : ℕ := 0xB001
def mpfNumberOfImagesCount : ℕ := 1
def mpfEntryTag : ℕ := 0xB002
def mpfEntrySize : ℕ := 16
def mpfAttrFormatJpeg : ℕ := 0x0000000
def mpfAttrTypePrimary : ℕ := 0x030000

/-- `mpfSig = {'M', 'P', 'F', 0}`. -/
def mpfSig : List ℕ := [0x4D, 0x50, 0x46, 0x00]

/-- `mpfBigEndian = {0x4D, 0x4D, 0x00, 0x2A}`. -/
def mpfBigEndianBytes : List ℕ := [0x4D, 0x4D, 0x00, 0x2A]

/-- `mpfVersion = {'0', '1', '0', '0'}`. -/
def mpfVersionBytes : List ℕ := [0x30, 0x31, 0x30, 0x30]

/-- Big-endian 16-bit write (`binary.BigEndian.PutUint16`). -/
def u16be (v : ℕ) : List ℕ := [v / 2 ^ 8 % 256, v % 256]

/-- Big-endian 32-bit write (`binary.BigEndian.PutUint32`). -/
def u32be (v : ℕ) : List ℕ :=
  [v / 2 ^ 24 % 256, v / 2 ^ 16 % 256, v / 2 ^ 8 % 256, v % 256]

/-- Go `uint32(x)` conversion of a (possibly negative) `int`. -/
def u32ofInt (x : ℤ) : ℕ := (x % (2 ^ 32 : ℤ)).toNat

/-- Go `calculateMpfSize` (src/unnamed/part_006 lines 615-617). -/
def calculateMpfSize : ℕ :=
  mpfSig.length + mpfEndianSize + 4 + 2 + mpfTagCount * mpfTagSize + 4 +
    mpfNumPictures * mpfEntrySize

/-- Go `generateMpf` (src/unnamed/part_006 lines 619-670): serialises the
fixed three-tag MPF index IFD followed by the two MP entries. -/
def generateMpf (primarySize primaryOffset secondarySize secondaryOffset : ℤ) :
    List ℕ :=
  mpfSig ++ mpfBigEndianBytes
    ++ u32be (mpfEndianSize + mpfSig.length)
    ++ u16be mpfTagCount
    ++ u16be mpfVersionTag ++ u16be mpfTypeUndefined ++ u32be mpfVersionCount
    ++ mpfVersionBytes
    ++ u16be mpfNumberOfImagesTag ++ u16be mpfTypeLong
    ++ u32be mpfNumberOfImagesCount ++ u32be mpfNumPictures
    ++ u16be mpfEntryTag ++ u16be mpfTypeUndefined
    ++ u32be (mpfEntrySize * mpfNumPictures)
    ++ u32be (8 + 2 + mpfTagCount * mpfTagSize + 4)
    ++ u32be 0
    ++ u32be (mpfAttrFormatJpeg ||| mpfAttrTypePrimary)
    ++ u32be (u32ofInt primarySize) ++ u32be (u32ofInt primaryOffset)
    ++ u16be 0 ++ u16be 0
    ++ u32be mpfAttrFormatJpeg
    ++ u32be (u32ofInt secondarySize) ++ u32be (u32ofInt secondaryOffset)
    ++ u16be 0 ++ u16be 0

/-! ### Metadata bundle (src/metadata_bundle.go) -/

/-- Error cases of `MetadataBundle.Validate` (metadata_bundle.go 40-54). -/
inductive BundleError where
  | missingFormat
  | unsupportedFormat
  | missingGainmapMeta
deriving DecidableEq, Repr

/-- `metadataBundleFormat = "ultrahdr-meta-1"` (metadata_bundle.go line 5). -/
def metadataBundleFormat : List Char := "ultrahdr-meta-1".data

/-- Go `MetadataBundle` struct (metadata_bundle.go lines 9-17). -/
structure MetadataBundle where
  format : List Char
  primaryXMP : List ℕ
  primaryISO : List ℕ
  secondaryXMP : List ℕ
  secondaryISO : List ℕ
  exif : List ℕ
  icc : List (List ℕ)
deriving DecidableEq, Repr

/-- Go `MetadataBundle.Validate` (metadata_bundle.go lines 40-54); `some e`
is the error case, `none` means the bundle passed validation.  (The Go
nil-receiver check has no counterpart: Lean values cannot be nil.) -/
def MetadataBundle.validate (b : MetadataBundle) : Option BundleError :=
  if b.format = [] then some .missingFormat
  else if b.format ≠ metadataBundleFormat then some .unsupportedFormat
  else if b.secondaryXMP = [] ∧ b.secondaryISO = [] then some .missingGainmapMeta
  else none

/-- Go `AssembleFromBundle` (metadata_bundle.go lines 57-62).  The call to
`assembleContainerVipsLike` is abstracted as the parameter `assemble`; the
claim concerns only the validation gate in front of it. -/
def AssembleFromBundle
    (assemble : List ℕ → List ℕ → List ℕ → List (List ℕ) → List ℕ → List ℕ →
      Option (List ℕ))
    (primaryJPEG gainmapJPEG : List ℕ) (b : MetadataBundle) :
    Option (List ℕ) :=
  match b.validate with
  | some _ => none
  | none => assemble primaryJPEG gainmapJPEG b.exif b.icc b.secondaryXMP
      b.secondaryISO

/-- Bundle used as a concrete witness for C9. -/
def c9Bundle : MetadataBundle where
  format := metadataBundleFormat
  primaryXMP := []
  primaryISO := []
  secondaryXMP := [1, 2, 3]
  secondaryISO := []
  exif := []
  icc := []

/-! ### Continued-fraction rational encoder (gainmap_metadata_iso.go) -/

/-- Loop body of `floatToUnsignedFractionImpl` (gainmap_metadata_iso.go
lines 429-458), with the Go `for iter := 0; iter < maxIter; iter++` loop
expressed as structural recursion on the remaining iteration budget.
State: `den`, `prevD` (uint32 values, here `ℕ`) and `currentV` (float64,
here modelled as an exact `ℚ`).  The fuel-exhausted case is the code after
the loop (lines 457-458).  `math.Round` on the nonnegative values reached
here coincides with Mathlib `round`, and `uint32(newD)` is exact because
the code has just checked `newD ≤ 2^32 - 1`. -/
def fracLoop (v : ℚ) (maxNumerator maxD : ℕ) :
    ℕ → ℕ → ℕ → ℚ → Option (ℕ × ℕ)
  | 0, den, _, _ => some ((round ((den : ℚ) * v)).toNat, den)
  | fuel + 1, den, prevD, currentV =>
    let nd : ℚ := (den : ℚ) * v
    if (maxNumerator : ℚ) < nd then none
    else
      let num : ℕ := (round nd).toNat
      if nd - (num : ℚ) = 0 then some (num, den)
      else if currentV = 0 then some (num, den)
      else
        let cV : ℚ := 1 / currentV
        let newD : ℕ := prevD + (⌊cV⌋).toNat * den
        if maxD < newD then some (num, den)
        else if 2 ^ 32 - 1 < newD then none
        else fracLoop v maxNumerator maxD fuel newD den (cV - ⌊cV⌋)

/-- Instrumented copy of `fracLoop` that additionally counts how many loop
iterations were entered. -/
def fracLoopCount (v : ℚ) (maxNumerator maxD : ℕ) :
    ℕ → ℕ → ℕ → ℚ → Option (ℕ × ℕ) × ℕ
  | 0, den, _, _ => (some ((round ((den : ℚ) * v)).toNat, den), 0)
  | fuel + 1, den, prevD, currentV =>
    let nd : ℚ := (den : ℚ) * v
    if (maxNumerator : ℚ) < nd then (none, 1)
    else
      let num : ℕ := (round nd).toNat
      if nd - (num : ℚ) = 0 then (some (num, den), 1)
      else if currentV = 0 then (some (num, den), 1)
      else
        let cV : ℚ := 1 / currentV
        let newD : ℕ := prevD + (⌊cV⌋).toNat * den
        if maxD < newD then (some (num, den), 1)
        else if 2 ^ 32 - 1 < newD then (none, 1)
        else
          let res := fracLoopCount v maxNumerator maxD fuel newD den
            (cV - ⌊cV⌋)
          (res.1, res.2 + 1)

/-- Go `floatToUnsignedFractionImpl` (gainmap_metadata_iso.go lines
418-459).  The `math.IsNaN(v)` guard has no counterpart: `ℚ` has no NaN. -/
def floatToUnsignedFractionImpl (v : ℚ) (maxNumerator : ℕ) :
    Option (ℕ × ℕ) :=
  if v < 0 ∨ (maxNumerator : ℚ) < v then none
  else
    let maxD : ℕ :=
      if v ≤ 1 then 2 ^ 32 - 1 else (⌊(maxNumerator : ℚ) / v⌋).toNat
    fracLoop v maxNumerator maxD 39 1 0 (v - ⌊v⌋)

/-- Number of loop iterations `floatToUnsignedFractionImpl` enters on a
given input. -/
def floatToUnsignedFractionIters (v : ℚ) (maxNumerator : ℕ) : ℕ :=
  if v < 0 ∨ (maxNumerator : ℚ) < v then 0
  else
    let maxD : ℕ :=
      if v ≤ 1 then 2 ^ 32 - 1 else (⌊(maxNumerator : ℚ) / v⌋).toNat
    (fracLoopCount v maxNumerator maxD 39 1 0 (v - ⌊v⌋)).2

/-- Go `floatToSignedFraction` (gainmap_metadata_iso.go lines 392-405).
The `int32(num)` conversion is exact: the loop guarantees
`num ≤ maxNumerator = 2^31 - 1`. -/
def floatToSignedFraction (v : ℚ) : Option (ℤ × ℕ) :=
  match floatToUnsignedFractionImpl |v| (2 ^ 31 - 1) with
  | none => none
  | some (num, den) => some (if v < 0 then -(num : ℤ) else (num : ℤ), den)

/-- Go `floatToUnsignedFraction` (gainmap_metadata_iso.go lines 407-416). -/
def floatToUnsignedFraction (v : ℚ) : Option (ℕ × ℕ) :=
  floatToUnsignedFractionImpl v (2 ^ 32 - 1)

/-! ### MPF decoding (src/resize.go) -/

/-- Byte read `data[i]`; every use below is behind the same bounds check
the Go code performs, so the default value is never observable. -/
def byteAt (l : List ℕ) (i : ℕ) : ℕ := l.getD i 0

/-- `order.Uint16(data[i:])` for big (`true`) or little (`false`) endian. -/
def ordU16 (big : Bool) (l : List ℕ) (i : ℕ) : ℕ :=
  if big then byteAt l i * 256 + byteAt l (i + 1)
  else byteAt l (i + 1) * 256 + byteAt l i

/-- `order.Uint32(data[i:])` for big (`true`) or little (`false`) endian. -/
def ordU32 (big : Bool) (l : List ℕ) (i : ℕ) : ℕ :=
  if big then
    ((byteAt l i * 256 + byteAt l (i + 1)) * 256 + byteAt l (i + 2)) * 256 +
      byteAt l (i + 3)
  else
    ((byteAt l (i + 3) * 256 + byteAt l (i + 2)) * 256 + byteAt l (i + 1)) *
        256 + byteAt l i

/-- Go `mpfInfo` struct (resize.go lines 597-601). -/
structure MpfInfo where
  primarySize : ℕ
  secondarySize : ℕ
  secondaryOffset : ℕ
deriving DecidableEq, Repr

/-- IFD tag scan of `parseMPF` (resize.go lines 631-644): walk `tagCount`
12-byte tags looking for the MP-entry tag.  `none` is the truncated-IFD
error; `some none` means the loop finished without finding the tag
(`entryOffset` stayed `-1`); `some (some v)` is the found offset. -/
def findMpfEntryOffset (big : Bool) (tiff : List ℕ) :
    ℕ → ℕ → Option (Option ℕ)
  | 0, _ => some none
  | n + 1, pos =>
    if tiff.length < pos + 12 then none
    else
      let tag := ordU16 big tiff pos
      let typ := ordU16 big tiff (pos + 2)
      let count := ordU32 big tiff (pos + 4)
      let value := ordU32 big tiff (pos + 8)
      if tag = mpfEntryTag ∧ typ = mpfTypeUndefined ∧ mpfEntrySize ≤ count
      then some (some value)
      else findMpfEntryOffset big tiff n (pos + 12)

/-- Go `parseMPF` (resize.go lines 603-666): validate the MPF signature,
endian marker, TIFF magic `0x002A` and IFD offsets against buffer bounds,
read the two MP entries, and reject zero sizes. -/
def parseMPF (payload : List ℕ) : Option MpfInfo :=
  if payload.length < mpfSig.length + 8 ∨ ¬ mpfSig.isPrefixOf payload then
    none
  else
    let tiff := payload.drop mpfSig.length
    if tiff.length < 8 then none
    else
      let ord : Option Bool :=
        if byteAt tiff 0 = 0x4D ∧ byteAt tiff 1 = 0x4D then some true
        else if byteAt tiff 0 = 0x49 ∧ byteAt tiff 1 = 0x49 then some false
        else none
      match ord with
      | none => none
      | some big =>
        if ordU16 big tiff 2 ≠ 0x002A then none
        else
          let ifdOffset := ordU32 big tiff 4
          if tiff.length < ifdOffset + 2 then none
          else
            let tagCount := ordU16 big tiff ifdOffset
            match findMpfEntryOffset big tiff tagCount (ifdOffset + 2) with
            | none => none
            | some none => none
            | some (some entryOffset) =>
              if tiff.length < entryOffset + mpfEntrySize * mpfNumPictures
              then none
              else
                let step := fun (acc : ℕ × ℕ × ℕ) (entryPos : ℕ) =>
                  let attr := ordU32 big tiff entryPos
                  let size := ordU32 big tiff (entryPos + 4)
                  let off := ordU32 big tiff (entryPos + 8)
                  if attr &&& mpfAttrTypePrimary ≠ 0 then
                    (size, acc.2.1, acc.2.2)
                  else (acc.1, size, off)
                let acc :=
                  step (step (0, 0, 0) entryOffset)
                    (entryOffset + mpfEntrySize)
                if acc.1 = 0 ∨ acc.2.1 = 0 then none
                else some ⟨acc.1, acc.2.1, acc.2.2⟩

/-! ### JPEG stream scanning (src/resize.go) -/

/-- Inner `for pos < len(data) && data[pos] == 0xFF { pos++ }` loops of
`findMPFInfo` and `findJPEGEnd`, as fuel recursion (callers pass fuel
`data.length + 1`, more than the loop can consume). -/
def skipFF (data : List ℕ) : ℕ → ℕ → ℕ
  | 0, pos => pos
  | fuel + 1, pos =>
    if data.length ≤ pos then pos
    else if byteAt data pos = 0xFF then skipFF data fuel (pos + 1)
    else pos

/-- Marker-walk loop of Go `findMPFInfo` (resize.go lines 548-593): scan
segments of the primary JPEG looking for an APP2 MPF segment and decode
it; any structural problem (`EOI`/`SOS` first, truncation, bad segment
length, `parseMPF` failure) returns `none` (`ok = false`).  Each
iteration advances `pos` by at least one, so fuel `data.length + 1` is
never exhausted before the Go loop condition `pos+3 < len(data)` fails. -/
def findMPFLoop (data : List ℕ) : ℕ → ℕ → Option (ℕ × ℕ × ℕ)
  | 0, _ => none
  | fuel + 1, pos =>
    if ¬ pos + 3 < data.length then none
    else if byteAt data pos ≠ 0xFF then findMPFLoop data fuel (pos + 1)
    else
      let pos1 := skipFF data (data.length + 1) pos
      if data.length ≤ pos1 then none
      else
        let marker := byteAt data pos1
        let pos2 := pos1 + 1
        if marker = 0xD8 then findMPFLoop data fuel pos2
        else if marker = 0xD9 ∨ marker = 0xDA then none
        else if (0xD0 ≤ marker ∧ marker ≤ 0xD7) ∨ marker = 0x01 then
          findMPFLoop data fuel pos2
        else if data.length ≤ pos2 + 1 then none
        else
          let segLen := byteAt data pos2 * 256 + byteAt data (pos2 + 1)
          if segLen < 2 ∨ data.length < pos2 + segLen then none
          else
            let segStart := pos2 + 2
            let segEnd := pos2 + segLen
            let seg := (data.drop segStart).take (segEnd - segStart)
            if marker = 0xE2 ∧ mpfSig.isPrefixOf seg then
              match parseMPF seg with
              | none => none
              | some info =>
                some (info.primarySize, info.secondarySize,
                  segStart + mpfSig.length + info.secondaryOffset)
            else findMPFLoop data fuel segEnd

/-- Go `findMPFInfo` (resize.go lines 543-595). -/
def findMPFInfo (data : List ℕ) (primaryStart : ℕ) : Option (ℕ × ℕ × ℕ) :=
  if data.length ≤ primaryStart + 1 ∨ byteAt data primaryStart ≠ 0xFF ∨
      byteAt data (primaryStart + 1) ≠ 0xD8 then none
  else findMPFLoop data (data.length + 1) (primaryStart + 2)

/-- Go `scanJPEGsByMPF` (resize.go lines 519-541): the MPF fast path.
`none` is Go's `ok = false`.  (The Go `secondaryStart < 0` check cannot
fire here: all offsets are naturals.) -/
def scanJPEGsByMPF (data : List ℕ) : Option (List (ℕ × ℕ)) :=
  if data.length < 4 ∨ byteAt data 0 ≠ 0xFF ∨ byteAt data 1 ≠ 0xD8 then none
  else
    match findMPFInfo data 0 with
    | none => none
    | some (p, s, so) =>
      if p = 0 ∨ s = 0 then none
      else if data.length < 0 + p ∨ data.length < so + s then none
      else if data.length ≤ so + 1 ∨ byteAt data so ≠ 0xFF ∨
          byteAt data (so + 1) ≠ 0xD8 then none
      else some [(0, 0 + p), (so, so + s)]

/-- Scan loop of Go `findJPEGEnd` (resize.go lines 668-751), fuel
recursion over the remaining bytes; `pos` advances every iteration so the
caller's fuel `data.length + 1` is never exhausted before the loop exits
(loop exit without `EOI` is the `"no EOI found"` error, `none`). -/
def findJPEGEndLoop (data : List ℕ) : ℕ → ℕ → Bool → Option ℕ
  | 0, _, _ => none
  | fuel + 1, pos, inScan =>
    if ¬ pos + 1 < data.length then none
    else if inScan = false then
      if byteAt data pos ≠ 0xFF then findJPEGEndLoop data fuel (pos + 1) false
      else
        let pos1 := skipFF data (data.length + 1) pos
        if data.length ≤ pos1 then none
        else
          let marker := byteAt data pos1
          let pos2 := pos1 + 1
          if marker = 0xD8 then findJPEGEndLoop data fuel pos2 false
          else if marker = 0xD9 then some pos2
          else if marker = 0xDA then
            if data.length ≤ pos2 + 1 then none
            else
              let segLen := byteAt data pos2 * 256 + byteAt data (pos2 + 1)
              findJPEGEndLoop data fuel (pos2 + segLen) true
          else if (0xD0 ≤ marker ∧ marker ≤ 0xD7) ∨ marker = 0x01 then
            findJPEGEndLoop data fuel pos2 false
          else if data.length ≤ pos2 + 1 then none
          else
            let segLen := byteAt data pos2 * 256 + byteAt data (pos2 + 1)
            if segLen < 2 then none
            else findJPEGEndLoop data fuel (pos2 + segLen) false
    else
      if byteAt data pos = 0xFF then
        if data.length ≤ pos + 1 then none
        else
          let nxt := byteAt data (pos + 1)
          if nxt = 0x00 then findJPEGEndLoop data fuel (pos + 2) true
          else if 0xD0 ≤ nxt ∧ nxt ≤ 0xD7 then
            findJPEGEndLoop data fuel (pos + 2) true
          else if nxt = 0xD9 then some (pos + 2)
          else
            let pos2 := pos + 2
            if data.length ≤ pos2 + 1 then none
            else
              let segLen := byteAt data pos2 * 256 + byteAt data (pos2 + 1)
              if segLen < 2 then none
              else findJPEGEndLoop data fuel (pos2 + segLen) true
      else findJPEGEndLoop data fuel (pos + 1) true

/-- Go `findJPEGEnd` (resize.go lines 668-751). -/
def findJPEGEnd (data : List ℕ) (start : ℕ) : Option ℕ :=
  if data.length ≤ start + 1 ∨ byteAt data start ≠ 0xFF ∨
      byteAt data (start + 1) ≠ 0xD8 then none
  else findJPEGEndLoop data (data.length + 1) (start + 2) false

/-- Linear SOI-hunting loop of Go `scanJPEGs` (resize.go lines 498-516):
accumulates ranges in reverse, reversed on exit; empty result is the
`"no JPEG images found"` error. -/
def scanJPEGsLinearLoop (data : List ℕ) :
    ℕ → ℕ → List (ℕ × ℕ) → Option (List (ℕ × ℕ))
  | 0, _, _ => none
  | fuel + 1, i, acc =>
    if ¬ i + 1 < data.length then
      if acc = [] then none else some acc.reverse
    else if byteAt data i = 0xFF ∧ byteAt data (i + 1) = 0xD8 then
      match findJPEGEnd data i with
      | none => none
      | some e => scanJPEGsLinearLoop data fuel e ((i, e) :: acc)
    else scanJPEGsLinearLoop data fuel (i + 1) acc

/-- The full linear marker scan that `scanJPEGs` falls back to when the
MPF fast path declines. -/
def scanJPEGsLinear (data : List ℕ) : Option (List (ℕ × ℕ)) :=
  scanJPEGsLinearLoop data (data.length + 1) 0 []

/-- Go `scanJPEGs` (resize.go lines 494-517): try the MPF fast path, fall
back to the linear scan when it declines. -/
def scanJPEGs (data : List ℕ) : Option (List (ℕ × ℕ)) :=
  match scanJPEGsByMPF data with
  | some r => some r
  | none => scanJPEGsLinear data

/-! ### XMP parsing (src/xmp.go, `parseXMP` with the legacy seq fallback)

The Go code drives parsing with `regexp` over the XML text.  Every regex
it uses is of one of three fixed shapes, and for those shapes Go's
leftmost-first matching is implemented exactly below:
* `name="([^"]+)"` — `findAttrCap`: at the leftmost position where the
  literal prefix matches and is followed by a nonempty run of non-quote
  characters terminated by a quote, capture that run;
* `(?s)<T>.*?<rdf:Seq>(.*?)</rdf:Seq>.*?</T>` — `seqRegexCap`: lazy
  gaps mean each literal is matched at its earliest occurrence that
  still lets the rest of the chain complete, with backtracking in
  priority order;
* `(?s)<rdf:li>([^<]+)</rdf:li>` with `FindAllStringSubmatch` —
  `findLis`: repeated leftmost matching, resuming after each match.

Payload bytes are modelled as `List Char` (one `Char` per byte). -/

/-- `xmpNamespace = "http://ns.adobe.com/xap/1.0/"` (resize.go line 485). -/
def xmpNamespaceChars : List Char := "http://ns.adobe.com/xap/1.0/".data

def verPat : List Char := "hdrgm:Version=\"".data
def minPat : List Char := "hdrgm:GainMapMin=\"".data
def maxPat : List Char := "hdrgm:GainMapMax=\"".data
def gammaPat : List Char := "hdrgm:Gamma=\"".data
def offSDRPat : List Char := "hdrgm:OffsetSDR=\"".data
def offHDRPat : List Char := "hdrgm:OffsetHDR=\"".data
def capMinPat : List Char := "hdrgm:HDRCapacityMin=\"".data
def capMaxPat : List Char := "hdrgm:HDRCapacityMax=\"".data
def basePat : List Char := "hdrgm:BaseRenditionIsHDR=\"".data

def minSeqOpen : List Char := "<hdrgm:GainMapMin>".data
def minSeqClose : List Char := "</hdrgm:GainMapMin>".data
def maxSeqOpen : List Char := "<hdrgm:GainMapMax>".data
def maxSeqClose : List Char := "</hdrgm:GainMapMax>".data
def gammaSeqOpen : List Char := "<hdrgm:Gamma>".data
def gammaSeqClose : List Char := "</hdrgm:Gamma>".data
def seqOpenTag : List Char := "<rdf:Seq>".data
def seqCloseTag : List Char := "</rdf:Seq>".data
def liOpenTag : List Char := "<rdf:li>".data
def liCloseTag : List Char := "</rdf:li>".data

/-- Leftmost match of the Go regex `pat("([^"]+)")`-shape attribute
lookup (`getStr` in parseXMP): returns the captured value. -/
def findAttrCap (pat : List Char) : List Char → Option (List Char)
  | [] => none
  | c :: tl =>
    if pat.isPrefixOf (c :: tl) then
      let rest := (c :: tl).drop pat.length
      let cap := rest.takeWhile (fun ch => ch ≠ '"')
      if cap ≠ [] ∧ cap.length < rest.length then some cap
      else findAttrCap pat tl
    else findAttrCap pat tl

/-- Whether `pat` occurs as a contiguous sublist. -/
def containsSub (pat : List Char) : List Char → Bool
  | [] => pat.isPrefixOf ([] : List Char)
  | c :: tl => pat.isPrefixOf (c :: tl) || containsSub pat tl

/-- All occurrences of `pat`, in order, as (text before, text after)
splits. -/
def splitsAt (pat : List Char) : List Char → List (List Char × List Char)
  | [] => if pat.isPrefixOf ([] : List Char) then [([], [])] else []
  | c :: tl =>
    (if pat.isPrefixOf (c :: tl) then
        [(([] : List Char), (c :: tl).drop pat.length)]
      else []) ++ (splitsAt pat tl).map (fun pr => (c :: pr.1, pr.2))

/-- Lazy-gap completion `.*?<rdf:Seq>(.*?)</rdf:Seq>.*?closeTag` applied
to the text after the opening tag: scan `<rdf:Seq>` occurrences in
priority order, then `</rdf:Seq>` occurrences in priority order, and
accept the first pair followed somewhere by `closeTag`. -/
def firstSeqCap (closeTag t : List Char) : Option (List Char) :=
  ((splitsAt seqOpenTag t).filterMap (fun ps =>
    ((splitsAt seqCloseTag ps.2).find? fun pc =>
      containsSub closeTag pc.2).map Prod.fst)).head?

/-- Leftmost-first match of
`(?s)openTag.*?<rdf:Seq>(.*?)</rdf:Seq>.*?closeTag`: the capture of the
match starting at the earliest `openTag` occurrence from which the chain
completes. -/
def seqRegexCap (openTag closeTag s : List Char) : Option (List Char) :=
  ((splitsAt openTag s).filterMap (fun po =>
    firstSeqCap closeTag po.2)).head?

/-- `FindAllStringSubmatch` of `(?s)<rdf:li>([^<]+)</rdf:li>`: all
non-overlapping leftmost matches, resuming after each match; fuel
recursion (callers pass `length + 1`). -/
def findLis : ℕ → List Char → List (List Char)
  | 0, _ => []
  | fuel + 1, s =>
    match s with
    | [] => []
    | c :: tl =>
      if liOpenTag.isPrefixOf (c :: tl) then
        let rest := (c :: tl).drop liOpenTag.length
        let cap := rest.takeWhile (fun ch => ch ≠ '<')
        if cap ≠ [] ∧ liCloseTag.isPrefixOf (rest.drop cap.length) then
          cap :: findLis fuel ((rest.drop cap.length).drop liCloseTag.length)
        else findLis fuel tl
      else findLis fuel tl

/-- ASCII fragment of `unicode.IsSpace` used by `strings.TrimSpace`; the
payloads reachable in the claims are ASCII. -/
def isSpaceChar (c : Char) : Bool :=
  c = ' ' ∨ c = '\t' ∨ c = '\n' ∨ c = '\r' ∨ c = '\x0b' ∨ c = '\x0c'

/-- Go `strings.TrimSpace`. -/
def trimSpace (s : List Char) : List Char :=
  ((s.dropWhile isSpaceChar).reverse.dropWhile isSpaceChar).reverse

def isDigitChar (c : Char) : Bool := '0' ≤ c ∧ c ≤ '9'

def natOfDigits (l : List Char) : ℕ :=
  l.foldl (fun acc c => acc * 10 + (c.toNat - 48)) 0

/-- Model of `strconv.ParseFloat(str, 32)` on the plain decimal syntax
`[+-]digits[.digits][(e|E)[+-]digits]` (with at least one mantissa
digit), producing the exact decimal value as a rational.  The float32
rounding Go then performs is not modelled; every value a claim's
conclusion depends on ("1.0") is exactly representable. -/
def parseGoFloat (s : List Char) : Option ℚ :=
  let sgnS : ℚ × List Char :=
    match s with
    | '+' :: tl => (1, tl)
    | '-' :: tl => (-1, tl)
    | _ => (1, s)
  let intD := sgnS.2.takeWhile isDigitChar
  let r1 := sgnS.2.drop intD.length
  let fracR : List Char × List Char :=
    match r1 with
    | '.' :: tl => (tl.takeWhile isDigitChar,
        tl.drop (tl.takeWhile isDigitChar).length)
    | _ => ([], r1)
  if intD = [] ∧ fracR.1 = [] then none
  else
    let mantissa : ℚ :=
      (natOfDigits intD : ℚ) + (natOfDigits fracR.1 : ℚ) / 10 ^ fracR.1.length
    match fracR.2 with
    | [] => some (sgnS.1 * mantissa)
    | e :: tl =>
      if e = 'e' ∨ e = 'E' then
        let esgnT : Bool × List Char :=
          match tl with
          | '+' :: tt => (true, tt)
          | '-' :: tt => (false, tt)
          | _ => (true, tl)
        let expD := esgnT.2.takeWhile isDigitChar
        if expD = [] ∨ esgnT.2.drop expD.length ≠ [] then none
        else
          some (sgnS.1 * mantissa *
            (if esgnT.1 then (10 : ℚ) ^ natOfDigits expD
              else ((10 : ℚ)⁻¹) ^ natOfDigits expD))
      else none

/-- Error cases of `parseXMP` (xmp.go lines 197-369). -/
inductive XmpError where
  | tooSmall
  | nsMismatch
  | missingVersion
  | badFloat
  | missingGainMapMax
  | missingHDRCapacityMax
  | baseHDRUnsupported
deriving DecidableEq, Repr

/-- `getFloat` of parseXMP: `.ok none` when the attribute is absent,
`.error .badFloat` when present but unparsable. -/
def getFloatAttr (pat xml : List Char) : Except XmpError (Option ℚ) :=
  match findAttrCap pat xml with
  | none => .ok none
  | some s =>
    match parseGoFloat s with
    | none => .error .badFloat
    | some v => .ok (some v)

/-- `getSeqFloats` of parseXMP (xmp.go lines 233-257): `.ok none` when the
seq regex does not match or yields no usable items. -/
def parseSeqFloats (openTag closeTag xml : List Char) :
    Except XmpError (Option (List ℚ)) :=
  match seqRegexCap openTag closeTag xml with
  | none => .ok none
  | some inner =>
    let items := findLis (inner.length + 1) inner
    if items = [] then .ok none
    else
      match items.mapM (fun it => parseGoFloat (trimSpace it)) with
      | none => .error .badFloat
      | some vals =>
        if vals = [] then .ok none else .ok (some vals)

/-- `applySeq` of parseXMP (xmp.go lines 259-274) acting on the
zero-initialised `tmp` array. -/
def applySeq (vals : List ℚ) : ℚ × ℚ × ℚ :=
  match vals with
  | [] => (0, 0, 0)
  | [v] => (v, v, v)
  | v0 :: v1 :: rest => (v0, v1, rest.headD 0)

/-- GainMapMax processing of parseXMP (xmp.go lines 282-296): attribute
first, then the legacy `rdf:Seq` fallback, else a hard error.  The
attribute path sets channel 0 only (channels 1-2 stay at the
zero-initialised default, to be filled by the broadcast loop). -/
def stepMax (exp2 : ℚ → ℚ) (xml : List Char) :
    Except XmpError (ℚ × ℚ × ℚ) :=
  match findAttrCap maxPat xml with
  | some s =>
    match parseGoFloat s with
    | none => .error .badFloat
    | some v => .ok (exp2 v, 0, 0)
  | none =>
    match parseSeqFloats maxSeqOpen maxSeqClose xml with
    | .error e => .error e
    | .ok none => .error .missingGainMapMax
    | .ok (some vals) =>
      let t := applySeq vals
      .ok (exp2 t.1, exp2 t.2.1, exp2 t.2.2)

/-- GainMapMin processing of parseXMP (xmp.go lines 306-318): like
`stepMax` but optional (default `MinContentBoost[0] = 1`). -/
def stepMin (exp2 : ℚ → ℚ) (xml : List Char) :
    Except XmpError (ℚ × ℚ × ℚ) :=
  match findAttrCap minPat xml with
  | some s =>
    match parseGoFloat s with
    | none => .error .badFloat
    | some v => .ok (exp2 v, 0, 0)
  | none =>
    match parseSeqFloats minSeqOpen minSeqClose xml with
    | .error e => .error e
    | .ok none => .ok (1, 0, 0)
    | .ok (some vals) =>
      let t := applySeq vals
      .ok (exp2 t.1, exp2 t.2.1, exp2 t.2.2)

/-- Gamma processing of parseXMP (xmp.go lines 319-329): no `exp2`; the
seq form overwrites the whole array. -/
def stepGamma (xml : List Char) : Except XmpError (ℚ × ℚ × ℚ) :=
  match findAttrCap gammaPat xml with
  | some s =>
    match parseGoFloat s with
    | none => .error .badFloat
    | some v => .ok (v, 0, 0)
  | none =>
    match parseSeqFloats gammaSeqOpen gammaSeqClose xml with
    | .error e => .error e
    | .ok none => .ok (1, 0, 0)
    | .ok (some vals) => .ok (applySeq vals)

/-- Broadcast loop of parseXMP (xmp.go lines 351-367) for one triple:
channels 1-2 that are still `0` inherit channel 0. -/
def broadcast3 (t : ℚ × ℚ × ℚ) : ℚ × ℚ × ℚ :=
  (t.1, if t.2.1 = 0 then t.1 else t.2.1, if t.2.2 = 0 then t.1 else t.2.2)

/-- The XML text of the payload: everything after the namespace prefix
and its NUL terminator (`xml := string(app1[len(xmpNamespace)+1:])`). -/
def xmlOf (app1 : List Char) : List Char :=
  app1.drop (xmpNamespaceChars.length + 1)

/-- BaseRenditionIsHDR check of parseXMP (xmp.go lines 345-349): true
when the attribute is present with value `"True"`. -/
def baseIsHDRTrue (xml : List Char) : Bool :=
  match findAttrCap basePat xml with
  | some cap => cap == "True".data
  | none => false

/-- Go `parseXMP` (xmp.go lines 197-369, the variant with the legacy
`rdf:Seq` fallback), parameterised by the `exp2f` implementation. -/
def parseXMP (exp2 : ℚ → ℚ) (app1 : List Char) :
    Except XmpError GainMapMetadata :=
  if app1.length < xmpNamespaceChars.length + 2 then .error .tooSmall
  else if ¬ (xmpNamespaceChars ++ ['\x00']).isPrefixOf app1 then
    .error .nsMismatch
  else
    let xml := xmlOf app1
    match findAttrCap verPat xml with
    | none => .error .missingVersion
    | some ver =>
      match stepMax exp2 xml with
      | .error e => .error e
      | .ok maxB =>
        match getFloatAttr capMaxPat xml with
        | .error e => .error e
        | .ok none => .error .missingHDRCapacityMax
        | .ok (some vCapMax) =>
          match stepMin exp2 xml with
          | .error e => .error e
          | .ok minB =>
            match stepGamma xml with
            | .error e => .error e
            | .ok gammaB =>
              match getFloatAttr offSDRPat xml with
              | .error e => .error e
              | .ok oSDR =>
                match getFloatAttr offHDRPat xml with
                | .error e => .error e
                | .ok oHDR =>
                  match getFloatAttr capMinPat xml with
                  | .error e => .error e
                  | .ok vCapMin =>
                    if baseIsHDRTrue xml then .error .baseHDRUnsupported
                    else
                      .ok
                        { version := ver
                          maxContentBoost := broadcast3 maxB
                          minContentBoost := broadcast3 minB
                          gamma := broadcast3 gammaB
                          offsetSDR := broadcast3
                            ((match oSDR with
                              | some v => v
                              | none => 1 / 64), 0, 0)
                          offsetHDR := broadcast3
                            ((match oHDR with
                              | some v => v
                              | none => 1 / 64), 0, 0)
                          hdrCapacityMin :=
                            (match vCapMin with
                              | some v => exp2 v
                              | none => 1)
                          hdrCapacityMax := exp2 vCapMax
                          useBaseCG := true }

/-- Concrete `exp2` used in the closed C5/C6 statements.  In every one of
those evaluations `exp2` is only ever applied to `1`, where the IEEE
`exp2f(1.0) = 2.0` exactly. -/
def c5Exp2 : ℚ → ℚ := fun _ => 2

/-- C5 counterexample payload: XMP that lacks the `hdrgm:GainMapMax`
attribute and contains the legacy sequence form, but has no
`hdrgm:Version` attribute. -/
def c5CexPayload : List Char :=
  xmpNamespaceChars ++ ['\x00'] ++
    "<hdrgm:GainMapMax><rdf:Seq><rdf:li>1.0</rdf:li></rdf:Seq></hdrgm:GainMapMax>".data

/-- C5 witness payload: otherwise-valid XMP using the legacy sequence
form for GainMapMax. -/
def c5WitnessPayload : List Char :=
  xmpNamespaceChars ++ ['\x00'] ++
    ("hdrgm:Version=\"1.0\" hdrgm:HDRCapacityMax=\"1.0\" " ++
      "<hdrgm:GainMapMax><rdf:Seq><rdf:li>1.0</rdf:li></rdf:Seq></hdrgm:GainMapMax>").data

/-- C6 counterexample payload: contains `BaseRenditionIsHDR="True"` but no
`hdrgm:Version`. -/
def c6CexPayload : List Char :=
  xmpNamespaceChars ++ ['\x00'] ++ "hdrgm:BaseRenditionIsHDR=\"True\"".data

/-- C6 witness payload: valid required fields plus
`BaseRenditionIsHDR="True"`. -/
def c6WitnessPayload : List Char :=
  xmpNamespaceChars ++ ['\x00'] ++
    ("hdrgm:Version=\"1.0\" hdrgm:GainMapMax=\"1.0\" " ++
      "hdrgm:HDRCapacityMax=\"1.0\" hdrgm:BaseRenditionIsHDR=\"True\"").data

end UltraHDR

namespace UltraHDR

/-- C2 counterexample: with `sdr = 0` and `hdr = 2` the code computes a raw
gain of `1.0` even though `hdr > 0`, refuting the claim that the gain is
`hdr / sdr` whenever `hdr > 0` or `sdr > 0` and is `1.0` only when both
are zero. -/
theorem encodeGainRawGain_zero_sdr_positive_hdr :
    encodeGainRawGain 0 2 = 1 ∧ (0 : ℚ) < 2 := by
  constructor
  · simp [encodeGainRawGain]
  · norm_num

/-- C2 (amended): in `encodeGain` the raw gain is `hdr / sdr` exactly when
`sdr > 0` (stated multiplicatively, so the division is explicit and
guarded), and is `1.0` whenever `sdr ≤ 0`, regardless of `hdr`. -/
theorem encodeGainRawGain_spec (sdr hdr : ℚ) :
    (0 < sdr → encodeGainRawGain sdr hdr * sdr = hdr) ∧
      (sdr ≤ 0 → encodeGainRawGain sdr hdr = 1) := by
  constructor
  · intro h
    rw [encodeGainRawGain, if_pos h]
    field_simp
  · intro h
    rw [encodeGainRawGain, if_neg (by linarith)]

/-- C2 witness: concrete instantiation at `sdr = 2`, `hdr = 6`. -/
theorem encodeGainRawGain_spec_witness :
    (0 < (2 : ℚ) → encodeGainRawGain 2 6 * 2 = 6) ∧
      ((2 : ℚ) ≤ 0 → encodeGainRawGain 2 6 = 1) :=
  encodeGainRawGain_spec 2 6

/-- C3 counterexample: a metadata with `min_content_boost =
max_content_boost = 1` on all channels but `OffsetSDR = 0 ≠ 1 = OffsetHDR`
does not return the SDR sample unchanged: `applyGainSingle` maps the black
pixel to `(-1, -1, -1)`. -/
theorem applyGainSingle_degenerate_offset_cex :
    applyGainSingle degenerateOps ⟨0, 0, 0⟩ (1 / 2) c3Meta 1 ≠
      (⟨0, 0, 0⟩ : Rgb) := by
  norm_num [applyGainSingle, c3Meta, degenerateOps, Rgb.mk.injEq]

/-- C3 (amended): if `min_content_boost = max_content_boost = 1` on all
channels and additionally `OffsetSDR = OffsetHDR` channel-wise, then both
`applyGainSingle` and `applyGainRGB` return the SDR sample unchanged, for
every sample, every stored gain, and every weight — for any float ops with
`log2 1 = 0` and `exp2 0 = 1` (exact IEEE identities).  In particular no
gamma perturbation survives in exact arithmetic. -/
theorem applyGain_degenerate_identity (ops : FloatOps) (e : Rgb) (g : ℚ)
    (gv : Rgb) (meta : GainMapMetadata) (w : ℚ)
    (hlog : ops.log2 1 = 0) (hexp : ops.exp2 0 = 1)
    (hmin : meta.minContentBoost = (1, 1, 1))
    (hmax : meta.maxContentBoost = (1, 1, 1))
    (hoff : meta.offsetSDR = meta.offsetHDR) :
    applyGainSingle ops e g meta w = e ∧ applyGainRGB ops e gv meta w = e := by
  obtain ⟨er, eg, eb⟩ := e
  obtain ⟨gr, gg, gb⟩ := gv
  constructor
  · simp only [applyGainSingle, hmin, hmax, hlog, ← hoff]
    simp [Rgb.mk.injEq]
    refine ⟨by ring_nf; rw [hexp]; ring, by ring_nf; rw [hexp]; ring,
      by ring_nf; rw [hexp]; ring⟩
  · simp only [applyGainRGB, hmin, hmax, hlog, ← hoff]
    simp [Rgb.mk.injEq]
    refine ⟨by ring_nf; rw [hexp]; ring, by ring_nf; rw [hexp]; ring,
      by ring_nf; rw [hexp]; ring⟩

/-- C3 witness: concrete degenerate metadata with equal offsets, concrete
sample, gain and weight. -/
theorem applyGain_degenerate_identity_witness :
    applyGainSingle degenerateOps ⟨1, 2, 3⟩ (1 / 4)
        { c3Meta with offsetHDR := (0, 0, 0) } (1 / 2) = ⟨1, 2, 3⟩ ∧
      applyGainRGB degenerateOps ⟨1, 2, 3⟩ ⟨1 / 4, 1 / 2, 3 / 4⟩
        { c3Meta with offsetHDR := (0, 0, 0) } (1 / 2) = ⟨1, 2, 3⟩ :=
  applyGain_degenerate_identity degenerateOps ⟨1, 2, 3⟩ (1 / 4)
    ⟨1 / 4, 1 / 2, 3 / 4⟩ { c3Meta with offsetHDR := (0, 0, 0) } (1 / 2)
    rfl rfl rfl rfl rfl

/-- C7: `generateMpf` always returns a byte slice whose length equals
`calculateMpfSize`, for all integer size/offset arguments: the encoded MPF
blob has a constant size determined by the fixed tag layout. -/
theorem generateMpf_length (primarySize primaryOffset secondarySize
    secondaryOffset : ℤ) :
    (generateMpf primarySize primaryOffset secondarySize
        secondaryOffset).length = calculateMpfSize := by
  rfl

/-- C9: `MetadataBundle.Validate` rejects every bundle whose format is not
exactly `"ultrahdr-meta-1"` and every bundle with both secondary metadata
segments empty (and `AssembleFromBundle` then fails as well), and a bundle
passing validation has the exact format string and at least one secondary
segment. -/
theorem metadataBundle_validate_spec
    (asm : List ℕ → List ℕ → List ℕ → List (List ℕ) → List ℕ → List ℕ →
      Option (List ℕ))
    (p g : List ℕ) (b : MetadataBundle) :
    (b.format ≠ metadataBundleFormat →
      b.validate ≠ none ∧ AssembleFromBundle asm p g b = none) ∧
    (b.secondaryXMP = [] ∧ b.secondaryISO = [] →
      b.validate ≠ none ∧ AssembleFromBundle asm p g b = none) ∧
    (b.validate = none →
      b.format = metadataBundleFormat ∧
        (b.secondaryXMP ≠ [] ∨ b.secondaryISO ≠ [])) := by
  refine ⟨?_, ?_, ?_⟩
  · intro hfmt
    have hv : b.validate ≠ none := by
      rw [MetadataBundle.validate]
      by_cases h0 : b.format = []
      · rw [if_pos h0]; simp
      · rw [if_neg h0, if_pos hfmt]; simp
    refine ⟨hv, ?_⟩
    rw [AssembleFromBundle]
    cases hval : b.validate with
    | none => exact absurd hval hv
    | some e => rfl
  · rintro ⟨hx, hi⟩
    have hv : b.validate ≠ none := by
      rw [MetadataBundle.validate]
      by_cases h0 : b.format = []
      · rw [if_pos h0]; simp
      · rw [if_neg h0]
        by_cases h1 : b.format ≠ metadataBundleFormat
        · rw [if_pos h1]; simp
        · rw [if_neg h1, if_pos ⟨hx, hi⟩]; simp
    refine ⟨hv, ?_⟩
    rw [AssembleFromBundle]
    cases hval : b.validate with
    | none => exact absurd hval hv
    | some e => rfl
  · intro hval
    rw [MetadataBundle.validate] at hval
    by_cases h0 : b.format = []
    · rw [if_pos h0] at hval; simp at hval
    · rw [if_neg h0] at hval
      by_cases h1 : b.format ≠ metadataBundleFormat
      · rw [if_pos h1] at hval; simp at hval
      · rw [if_neg h1] at hval
        by_cases h2 : b.secondaryXMP = [] ∧ b.secondaryISO = []
        · rw [if_pos h2] at hval; simp at hval
        · rw [not_not] at h1
          exact ⟨h1, by tauto⟩

/-- Helper: the instrumented loop computes the same result as the plain
one, and never enters more iterations than its fuel allows. -/
theorem fracLoopCount_spec (v : ℚ) (mN mD : ℕ) :
    ∀ (fuel den prevD : ℕ) (currentV : ℚ),
      (fracLoopCount v mN mD fuel den prevD currentV).1 =
        fracLoop v mN mD fuel den prevD currentV ∧
      (fracLoopCount v mN mD fuel den prevD currentV).2 ≤ fuel := by
  intro fuel
  induction fuel with
  | zero =>
    intro den prevD currentV
    simp [fracLoop, fracLoopCount]
  | succ n ih =>
    intro den prevD currentV
    rw [fracLoop, fracLoopCount]
    simp only
    split_ifs with h1 h2 h3 h4 h5
    · simp
    · simp
    · simp
    · simp
    · simp
    · refine ⟨(ih _ _ _).1, ?_⟩
      have := (ih (prevD + (⌊1 / currentV⌋).toNat * den) den
        (1 / currentV - ⌊1 / currentV⌋)).2
      omega

/-- C4: the continued-fraction rational encoder is deterministic — for a
fixed input, 1000 independent calls to `floatToUnsignedFractionImpl` (and
to `floatToSignedFraction`) all yield the identical (numerator,
denominator) output — and the loop iteration count is bounded by 39. -/
theorem floatToFraction_deterministic (v : ℚ) (mN : ℕ) :
    (∀ r ∈ List.replicate 1000 (floatToUnsignedFractionImpl v mN),
        r = floatToUnsignedFractionImpl v mN) ∧
    (∀ r ∈ List.replicate 1000 (floatToSignedFraction v),
        r = floatToSignedFraction v) ∧
    floatToUnsignedFractionIters v mN ≤ 39 := by
  refine ⟨fun r hr => List.eq_of_mem_replicate hr,
    fun r hr => List.eq_of_mem_replicate hr, ?_⟩
  rw [floatToUnsignedFractionIters]
  split_ifs with h
  · omega
  all_goals exact (fracLoopCount_spec v mN _ 39 1 0 (v - ⌊v⌋)).2

/-- C4 witness: concrete instantiation at `v = 1/3`,
`maxNumerator = 2^31 - 1`. -/
theorem floatToFraction_deterministic_witness :
    (∀ r ∈ List.replicate 1000 (floatToUnsignedFractionImpl (1 / 3)
        (2 ^ 31 - 1)),
        r = floatToUnsignedFractionImpl (1 / 3) (2 ^ 31 - 1)) ∧
    (∀ r ∈ List.replicate 1000 (floatToSignedFraction (1 / 3)),
        r = floatToSignedFraction (1 / 3)) ∧
    floatToUnsignedFractionIters (1 / 3) (2 ^ 31 - 1) ≤ 39 :=
  floatToFraction_deterministic (1 / 3) (2 ^ 31 - 1)

/-- C8: whenever `parseMPF` succeeds, the decoded primary and secondary
sizes are nonzero — a payload decoding to `primary_size = 0` is always
rejected as malformed — and the payload carries the MPF signature.  All
reads in `parseMPF` sit behind the bounds checks visible in the
definition. -/
theorem parseMPF_ok_spec (payload : List ℕ) (info : MpfInfo)
    (h : parseMPF payload = some info) :
    0 < info.primarySize ∧ 0 < info.secondarySize ∧
      mpfSig.isPrefixOf payload := by
  obtain ⟨p, s, o⟩ := info
  rw [parseMPF] at h
  split at h
  next => simp at h
  next h1 =>
    push_neg at h1
    refine ?_
    dsimp only at h
    repeat' split at h
    all_goals simp_all
    all_goals omega

/-- C8 witness: `parseMPF` accepts the blob produced by `generateMpf` for
sizes 100/50 and offset 200, and the theorem applies to it. -/
theorem parseMPF_ok_spec_witness :
    0 < (MpfInfo.mk 100 50 200).primarySize ∧
      0 < (MpfInfo.mk 100 50 200).secondarySize ∧
      mpfSig.isPrefixOf (generateMpf 100 0 50 200) :=
  parseMPF_ok_spec (generateMpf 100 0 50 200) (MpfInfo.mk 100 50 200)
    (by decide)

/-- C10: when the MPF fast path declines — in particular whenever
`findMPFInfo` reports a directory whose sizes are zero, whose ranges run
past the buffer end, or whose secondary stream does not start with SOI —
`scanJPEGs` reports no error from that path: it returns exactly the
result of the full linear marker scan, as if no MPF directory were
present. -/
theorem scanJPEGs_mpf_silent_fallback (data : List ℕ) :
    (scanJPEGsByMPF data = none → scanJPEGs data = scanJPEGsLinear data) ∧
    (∀ p s so, findMPFInfo data 0 = some (p, s, so) →
      (p = 0 ∨ s = 0 ∨ data.length < p ∨ data.length < so + s ∨
        data.length ≤ so + 1 ∨ byteAt data so ≠ 0xFF ∨
        byteAt data (so + 1) ≠ 0xD8) →
      scanJPEGsByMPF data = none ∧
        scanJPEGs data = scanJPEGsLinear data) := by
  have fallback : scanJPEGsByMPF data = none →
      scanJPEGs data = scanJPEGsLinear data := by
    intro h
    rw [scanJPEGs, h]
  refine ⟨fallback, ?_⟩
  intro p s so hfind hbad
  have hnone : scanJPEGsByMPF data = none := by
    rw [scanJPEGsByMPF]
    split_ifs with h1
    · rfl
    · rw [hfind]
      dsimp only
      split_ifs with h2 h3 h4
      · rfl
      · rfl
      · rfl
      · exfalso
        push_neg at h2 h3 h4
        rcases hbad with hb | hb | hb | hb | hb | hb | hb
        · exact h2.1 hb
        · exact h2.2 hb
        · omega
        · omega
        · omega
        · exact hb h4.2.1
        · exact hb h4.2.2
  exact ⟨hnone, fallback hnone⟩

/-- C10 witness: a four-byte JPEG with no MPF directory at all; the fast
path declines and the scan equals the linear scan. -/
theorem scanJPEGs_mpf_silent_fallback_witness :
    scanJPEGs [0xFF, 0xD8, 0xFF, 0xD9] =
      scanJPEGsLinear [0xFF, 0xD8, 0xFF, 0xD9] :=
  (scanJPEGs_mpf_silent_fallback [0xFF, 0xD8, 0xFF, 0xD9]).1 (by decide)

/-- Helper: an absent attribute makes `getFloatAttr` return `.ok none`. -/
theorem getFloatAttr_none (pat xml : List Char)
    (h : findAttrCap pat xml = none) : getFloatAttr pat xml = .ok none := by
  simp only [getFloatAttr, h]

/-- Helper: with the attribute absent and no usable seq, `stepMax` is the
hard missing-GainMapMax error. -/
theorem stepMax_missing (exp2 : ℚ → ℚ) (xml : List Char)
    (h1 : findAttrCap maxPat xml = none)
    (h2 : parseSeqFloats maxSeqOpen maxSeqClose xml = .ok none) :
    stepMax exp2 xml = .error .missingGainMapMax := by
  simp only [stepMax, h1, h2]

/-- Helper: the decimal text `"1.0"` parses to the rational `1`. -/
theorem parseGoFloat_one : parseGoFloat ['1', '.', '0'] = some 1 := by
  norm_num +decide [parseGoFloat, isDigitChar, List.takeWhile,
    show natOfDigits ['1'] = 1 from by decide,
    show natOfDigits ['0'] = 0 from by decide]

/-- Helper: `stepMax` on a single-item seq capture `"1.0"` broadcasts
`exp2 1` to all three channels. -/
theorem stepMax_single_li (exp2 : ℚ → ℚ) (xml inner li : List Char)
    (hexp : exp2 1 = 2)
    (hmaxAttr : findAttrCap maxPat xml = none)
    (hseq : seqRegexCap maxSeqOpen maxSeqClose xml = some inner)
    (hlis : findLis (inner.length + 1) inner = [li])
    (hli : trimSpace li = "1.0".data) :
    stepMax exp2 xml = .ok (2, 2, 2) := by
  have h10 : parseGoFloat (trimSpace li) = some 1 := by
    rw [hli]
    exact parseGoFloat_one
  simp only [stepMax, hmaxAttr, parseSeqFloats, hseq, hlis, h10,
    List.mapM_cons, List.mapM_nil, Option.pure_def, Option.bind_eq_bind,
    Option.some_bind, applySeq]
  norm_num [hexp]

/-- C5 counterexample: a payload that lacks the `hdrgm:GainMapMax`
attribute and contains the legacy sequence form, yet `parseXMP` fails
(with a missing-version error) rather than succeeding, because the claim
quantifies over every such payload and this one has no `hdrgm:Version`. -/
theorem parseXMP_seq_fallback_cex :
    findAttrCap maxPat (xmlOf c5CexPayload) = none ∧
    (seqRegexCap maxSeqOpen maxSeqClose (xmlOf c5CexPayload)).isSome =
      true ∧
    parseXMP c5Exp2 c5CexPayload = .error .missingVersion := by
  refine ⟨by decide, by decide, by rfl⟩

/-- C5 (amended): for every otherwise-valid XMP payload — namespace
header present, a Version attribute, an HDRCapacityMax attribute with a
parseable value, all optional fields absent or parseable, no
`BaseRenditionIsHDR="True"` — that lacks the `hdrgm:GainMapMax`
attribute while its GainMapMax legacy `rdf:Seq` block captures the
single `<rdf:li>` value `1.0`, `parseXMP` succeeds with
`max_content_boost = exp2(1.0) = 2.0` on all 3 channels. -/
theorem parseXMP_seq_fallback
    (exp2 : ℚ → ℚ) (app1 xml ver inner li : List Char)
    (minB gammaB : ℚ × ℚ × ℚ) (oS oH cMin : Option ℚ) (q : ℚ)
    (hexp : exp2 1 = 2)
    (hlen : ¬ app1.length < xmpNamespaceChars.length + 2)
    (hns : (xmpNamespaceChars ++ ['\x00']).isPrefixOf app1)
    (hxml : xml = xmlOf app1)
    (hver : findAttrCap verPat xml = some ver)
    (hmaxAttr : findAttrCap maxPat xml = none)
    (hseq : seqRegexCap maxSeqOpen maxSeqClose xml = some inner)
    (hlis : findLis (inner.length + 1) inner = [li])
    (hli : trimSpace li = "1.0".data)
    (hcapmax : getFloatAttr capMaxPat xml = .ok (some q))
    (hmin : stepMin exp2 xml = .ok minB)
    (hgamma : stepGamma xml = .ok gammaB)
    (hsdr : getFloatAttr offSDRPat xml = .ok oS)
    (hhdr : getFloatAttr offHDRPat xml = .ok oH)
    (hcmin : getFloatAttr capMinPat xml = .ok cMin)
    (hbase : ∀ cap, findAttrCap basePat xml = some cap →
      cap ≠ "True".data) :
    ∃ meta, parseXMP exp2 app1 = .ok meta ∧
      meta.maxContentBoost = (2, 2, 2) := by
  subst hxml
  have hstep := stepMax_single_li exp2 _ inner li hexp hmaxAttr hseq hlis hli
  have hfalse : baseIsHDRTrue (xmlOf app1) = false := by
    cases hb : findAttrCap basePat (xmlOf app1) with
    | none => simp only [baseIsHDRTrue, hb]
    | some cap =>
      simp only [baseIsHDRTrue, hb]
      exact beq_eq_false_iff_ne.mpr (hbase cap hb)
  rw [parseXMP, if_neg hlen, if_neg (not_not_intro hns)]
  simp only [hver, hstep, hcapmax, hmin, hgamma, hsdr, hhdr, hcmin, hfalse]
  exact ⟨_, rfl, by norm_num [broadcast3]⟩

/-- C5 witness: concrete otherwise-valid payload using the legacy
sequence form; the parse succeeds with `max_content_boost = (2,2,2)`. -/
theorem parseXMP_seq_fallback_witness :
    ∃ meta, parseXMP c5Exp2 c5WitnessPayload = .ok meta ∧
      meta.maxContentBoost = (2, 2, 2) := by
  have hcap : getFloatAttr capMaxPat (xmlOf c5WitnessPayload) =
      .ok (some 1) := by
    simp only [getFloatAttr,
      show findAttrCap capMaxPat (xmlOf c5WitnessPayload) =
        some ['1', '.', '0'] from by decide, parseGoFloat_one]
  exact parseXMP_seq_fallback c5Exp2 c5WitnessPayload
    (xmlOf c5WitnessPayload) "1.0".data
    "<rdf:li>1.0</rdf:li>".data "1.0".data (1, 0, 0) (1, 0, 0)
    none none none 1
    rfl (by decide) (by decide) rfl (by decide) (by decide) (by decide)
    (by decide) (by decide) hcap (by rfl) (by rfl) (by rfl) (by rfl)
    (by rfl)
    (fun cap h => by
      rw [show findAttrCap basePat (xmlOf c5WitnessPayload) = none
        from by decide] at h
      exact Option.noConfusion h)

/-- C6 counterexample: a payload containing `BaseRenditionIsHDR="True"`
but no `hdrgm:Version` attribute gets a missing-version error, not the
unsupported-input error, refuting the claim that every payload containing
`BaseRenditionIsHDR="True"` yields the unsupported-input error. -/
theorem parseXMP_baseHDR_cex :
    findAttrCap basePat (xmlOf c6CexPayload) = some "True".data ∧
    parseXMP c5Exp2 c6CexPayload ≠ .error .baseHDRUnsupported := by
  refine ⟨by decide, ?_⟩
  rw [show parseXMP c5Exp2 c6CexPayload = .error .missingVersion from rfl]
  intro h
  injection h with h'
  exact XmpError.noConfusion h'

/-- C6 (amended): `parseXMP` errors for every payload whose XML part lacks
the Version attribute, for every payload lacking GainMapMax in both
attribute and usable-seq form, and for every payload lacking the
HDRCapacityMax attribute; and a payload whose required fields all parse
and whose first `BaseRenditionIsHDR` match captures `"True"` gets the
unsupported-input error (a payload that already failed an earlier
required-field check errors with that earlier error instead). -/
theorem parseXMP_required_fields (exp2 : ℚ → ℚ) (app1 : List Char) :
    (findAttrCap verPat (xmlOf app1) = none →
      ∃ e, parseXMP exp2 app1 = .error e) ∧
    (findAttrCap maxPat (xmlOf app1) = none ∧
      parseSeqFloats maxSeqOpen maxSeqClose (xmlOf app1) = .ok none →
      ∃ e, parseXMP exp2 app1 = .error e) ∧
    (findAttrCap capMaxPat (xmlOf app1) = none →
      ∃ e, parseXMP exp2 app1 = .error e) ∧
    (∀ xml ver maxB q minB gammaB oS oH cMin,
      xml = xmlOf app1 →
      ¬ app1.length < xmpNamespaceChars.length + 2 →
      (xmpNamespaceChars ++ ['\x00']).isPrefixOf app1 →
      findAttrCap verPat xml = some ver →
      stepMax exp2 xml = .ok maxB →
      getFloatAttr capMaxPat xml = .ok (some q) →
      stepMin exp2 xml = .ok minB →
      stepGamma xml = .ok gammaB →
      getFloatAttr offSDRPat xml = .ok oS →
      getFloatAttr offHDRPat xml = .ok oH →
      getFloatAttr capMinPat xml = .ok cMin →
      findAttrCap basePat xml = some ("True".data) →
      parseXMP exp2 app1 = .error .baseHDRUnsupported) := by
  refine ⟨?_, ?_, ?_, ?_⟩
  · intro h
    rw [parseXMP]
    split_ifs with h1 h2 <;>
      first
        | exact ⟨_, rfl⟩
        | (simp only [h]; exact ⟨_, rfl⟩)
  · rintro ⟨h1, h2⟩
    rw [parseXMP]
    split_ifs with ha hb <;>
      first
        | exact ⟨_, rfl⟩
        | (cases hv : findAttrCap verPat (xmlOf app1) with
            | none => simp only [hv]; exact ⟨_, rfl⟩
            | some ver =>
              have hsm := stepMax_missing exp2 (xmlOf app1) h1 h2
              simp only [hv, hsm]
              exact ⟨_, rfl⟩)
  · intro h
    rw [parseXMP]
    split_ifs with ha hb <;>
      first
        | exact ⟨_, rfl⟩
        | (cases hv : findAttrCap verPat (xmlOf app1) with
            | none => simp only [hv]; exact ⟨_, rfl⟩
            | some ver =>
              simp only [hv]
              cases hm : stepMax exp2 (xmlOf app1) with
              | error e => simp only [hm]; exact ⟨_, rfl⟩
              | ok maxB =>
                have hg := getFloatAttr_none capMaxPat (xmlOf app1) h
                simp only [hm, hg]
                exact ⟨_, rfl⟩)
  · intro xml ver maxB q minB gammaB oS oH cMin hxml hlen hns hver hmax
      hcap hmin hgamma hsdr hhdr hcmin hbase
    subst hxml
    have htrue : baseIsHDRTrue (xmlOf app1) = true := by
      simp only [baseIsHDRTrue, hbase]
      exact beq_self_eq_true _
    rw [parseXMP, if_neg hlen, if_neg (not_not_intro hns)]
    simp only [hver, hmax, hcap, hmin, hgamma, hsdr, hhdr, hcmin, htrue]
    rfl

/-- C6 witness: a payload with valid required fields and
`BaseRenditionIsHDR="True"` receives exactly the unsupported-input
error. -/
theorem parseXMP_required_fields_witness :
    parseXMP c5Exp2 c6WitnessPayload = .error .baseHDRUnsupported := by
  have hcap : getFloatAttr capMaxPat (xmlOf c6WitnessPayload) =
      .ok (some 1) := by
    simp only [getFloatAttr,
      show findAttrCap capMaxPat (xmlOf c6WitnessPayload) =
        some ['1', '.', '0'] from by decide, parseGoFloat_one]
  exact (parseXMP_required_fields c5Exp2 c6WitnessPayload).2.2.2
    (xmlOf c6WitnessPayload) "1.0".data
    (2, 0, 0) 1 (1, 0, 0) (1, 0, 0) none none none
    rfl (by decide) (by decide) (by decide) (by rfl) hcap (by rfl)
    (by rfl) (by rfl) (by rfl) (by rfl) (by decide)

/-- C9 witness: a concrete well-formed bundle and a concrete rejected
bundle, instantiating the validation theorem. -/
theorem metadataBundle_validate_spec_witness :
    (c9Bundle.format ≠ metadataBundleFormat →
      c9Bundle.validate ≠ none ∧
        AssembleFromBundle (fun _ _ _ _ _ _ => some []) [] [] c9Bundle =
          none) ∧
    (c9Bundle.secondaryXMP = [] ∧ c9Bundle.secondaryISO = [] →
      c9Bundle.validate ≠ none ∧
        AssembleFromBundle (fun _ _ _ _ _ _ => some []) [] [] c9Bundle =
          none) ∧
    (c9Bundle.validate = none →
      c9Bundle.format = metadataBundleFormat ∧
        (c9Bundle.secondaryXMP ≠ [] ∨ c9Bundle.secondaryISO ≠ [])) :=
  metadataBundle_validate_spec (fun _ _ _ _ _ _ => some []) [] [] c9Bundle

end UltraHDR
